import Mathlib

/-!
Verification of the Z80Asm assembler (src/Z80Asm.py) against its
natural-language specification.

Each definition below is a shallow embedding of a function or code region of
src/Z80Asm.py; the source line numbers are given in the doc comments.
Python integers are modelled as `Int` (arbitrary precision, as in Python);
bytes are modelled as `Nat` values below 256.  Python's `x & (2^k - 1)` on an
arbitrary (two's-complement) integer equals `x % 2^k` with Euclidean
(non-negative) remainder, which is Lean's `Int.emod`; Python's `//` and `%`
are floor division and floor remainder, which are Lean's `Int.fdiv` and
`Int.fmod`.
-/

namespace Z80Asm

/-- Python string formatting of a `Nat` as upper-case hex, zero-padded to a
*minimum* width `w` (the Python format `'{:0wX}'`); values needing more than
`w` digits produce a longer string, exactly as in Python. -/
def fmtHexW (w : Nat) (v : Nat) : String :=
  let ds := (Nat.toDigits 16 v).map Char.toUpper
  String.mk (List.replicate (w - ds.length) '0' ++ ds)

/-- HexFmt, src/Z80Asm.py lines 57-61: `'-' + HexFmt (-v, d)` for negative
values, otherwise `'0x{:0dX}'.format (v)` (the single recursive call on `-v`
is inlined here, since `-v` is non-negative it takes the second branch). -/
def HexFmt (v : Int) (d : Nat) : String :=
  if v < 0 then "-" ++ "0x" ++ fmtHexW d (-v).toNat
  else "0x" ++ fmtHexW d v.toNat

/-- Assembler.AsmErr, src/Z80Asm.py lines 883-885: record an error message
only if no error has been recorded yet for the current line (first error
wins). -/
def AsmErr (sErr : Option String) (msg : String) : Option String :=
  match sErr with
  | none => some msg
  | some e => some e

/-! ## Intel-HEX output sink (class HexOut, src/Z80Asm.py lines 73-117) -/

namespace HexOut

/-- The running checksum accumulator of HexOut.Write (lines 82-87):
`cs = n + (addr >> 8) + (addr & 0xFF)` plus every data byte. -/
def recordSum (addr : Nat) (data : List Nat) : Nat :=
  data.length + (addr >>> 8) + (addr % 256) + data.sum

/-- The checksum value written by HexOut.Write, line 88:
`cs = 0x100 - ( cs & 0xFF )`.  Note the source applies NO final `& 0xFF`:
when the record byte sum is a multiple of 256 this value is 0x100, not 0. -/
def recordChecksum (addr : Nat) (data : List Nat) : Nat :=
  0x100 - (recordSum addr data % 256)

/-- The full type-00 record text built by HexOut.Write (lines 84-89):
`':{:02X}{:04X}00'` then the data bytes as `'{:02X}'` each, then the
checksum as `'{:02X}\n'`. -/
def recordString (addr : Nat) (data : List Nat) : String :=
  ":" ++ fmtHexW 2 data.length ++ fmtHexW 4 addr ++ "00"
      ++ String.join (data.map (fun by2 => fmtHexW 2 by2))
      ++ fmtHexW 2 (recordChecksum addr data) ++ "\n"

end HexOut

/-! ## Zero-operand Z80 opcode table (Assembler.op0, src/Z80Asm.py lines
658-692) and its dispatch (Assembler.Parse, lines 2230-2237). -/

/-- Assembler.op0, src/Z80Asm.py lines 658-692.  Byte strings are transcribed
literally; note that the source entry for RETN is the Python literal
`b'\xED45'`, which is THREE bytes 0xED, 0x34 (the character 4), 0x35 (the
character 5) - not the two bytes 0xED 0x45. -/
def op0 : String → Option (List Nat)
  | "CCF" => some [0x3F]
  | "CPD" => some [0xED, 0xA9]
  | "CPDR" => some [0xED, 0xB9]
  | "CPI" => some [0xED, 0xA1]
  | "CPIR" => some [0xED, 0xB1]
  | "CPL" => some [0x2F]
  | "DAA" => some [0x27]
  | "DI" => some [0xF3]
  | "EI" => some [0xFB]
  | "EXX" => some [0xD9]
  | "HALT" => some [0x76]
  | "IND" => some [0xED, 0xAA]
  | "INDR" => some [0xED, 0xBA]
  | "INI" => some [0xED, 0xA2]
  | "INIR" => some [0xED, 0xB2]
  | "LDD" => some [0xED, 0xA8]
  | "LDDR" => some [0xED, 0xB8]
  | "LDI" => some [0xED, 0xA0]
  | "LDIR" => some [0xED, 0xB0]
  | "NEG" => some [0xED, 0x44]
  | "NOP" => some [0x00]
  | "OUTD" => some [0xED, 0xAB]
  | "OTDR" => some [0xED, 0xBB]
  | "OUTI" => some [0xED, 0xA3]
  | "OTIR" => some [0xED, 0xB3]
  | "RETI" => some [0xED, 0x4D]
  | "RETN" => some [0xED, 0x34, 0x35]
  | "RLA" => some [0x17]
  | "RLCA" => some [0x07]
  | "RLD" => some [0xED, 0x6F]
  | "RRA" => some [0x1F]
  | "RRCA" => some [0x0F]
  | "RRD" => some [0xED, 0x67]
  | "SCF" => some [0x37]
  | _ => none

/-- Assembler.Parse, src/Z80Asm.py lines 2230-2237: dispatch of a
zero-operand Z80 mnemonic.  `hasArgs` models `nCh != -1` (an argument field
is present on the line); with arguments the line is an error and emits
nothing, otherwise the table bytes are emitted. -/
def parseOp0 (sOpCode : String) (hasArgs : Bool) : Option (List Nat × Option String) :=
  match op0 sOpCode with
  | none => none
  | some byCode =>
      if hasArgs then some ([], some "Unexpected arguments to opcode")
      else some (byCode, none)

/-! ## Range-checking wrappers over the expression evaluator
(src/Z80Asm.py lines 1443-1488).  Each wrapper range-checks the signed
integer produced by EvalArith; `phase` and `enabled` model `self.phase` and
`self.enable[-1]`.  `value & 0xFFFF` and `value & 0xFF` are written as
`value % 65536` and `value % 256` (Euclidean remainder). -/

/-- Assembler.EvalArith16, src/Z80Asm.py lines 1443-1449. -/
def EvalArith16 (phase : Nat) (enabled : Bool) (value : Int) : Int × Option String :=
  if -0x8000 ≤ value ∧ value ≤ 0xFFFF then (value % 65536, none)
  else if phase = 2 ∧ enabled = true then (0, some "Invalid 16-bit value")
  else (0, none)

/-- Assembler.EvalArithS8, src/Z80Asm.py lines 1451-1457; `sErr` is the
caller-supplied error message. -/
def EvalArithS8 (phase : Nat) (enabled : Bool) (value : Int) (sErr : String) :
    Int × Option String :=
  if -0x80 ≤ value ∧ value ≤ 0x7F then (value % 256, none)
  else if phase = 2 ∧ enabled = true then (0, some sErr)
  else (0, none)

/-- Assembler.EvalArith8, src/Z80Asm.py lines 1480-1488.  Note the second
test is `value > -0x80` (strict), so -0x80 itself falls through to the
error branch. -/
def EvalArith8 (phase : Nat) (enabled : Bool) (value : Int) (sErr : String) :
    Int × Option String :=
  if 0xFF00 ≤ value ∧ value ≤ 0xFFFF then (value % 256, none)
  else if -0x80 < value ∧ value ≤ 0xFF then (value % 256, none)
  else if phase = 2 ∧ enabled = true then (0, some sErr)
  else (0, none)

/-! ## JR / DJNZ encoding (Assembler.Parse, src/Z80Asm.py lines 2337-2351
and 2372-2382).  `target` is the value returned by EvalArith16 for the
argument expression; `pcaddr` is `self.pc[self.pseg] + self.base[self.pseg]`
(the program address of the instruction); `byCode` is 0x18 for an
unconditional JR and 0x20 + condition for a conditional one. -/

/-- JR encoding, src/Z80Asm.py lines 2342-2348: compute
`address = target - (pcaddr + 2)`; in pass 2 inside an enabled block an
out-of-range displacement records an error and is replaced by 0; the bytes
emitted are `byCode` then `address & 0xFF`. -/
def jrEncode (phase : Nat) (enabled : Bool) (byCode : Nat) (target pcaddr : Int) :
    List Nat × Option String :=
  let address := target - (pcaddr + 2)
  if phase = 2 ∧ enabled = true ∧ (address < -128 ∨ address > 127) then
    ([byCode, 0], some ("Relative jump out of range: " ++ toString address))
  else ([byCode, (address % 256).toNat], none)

/-- DJNZ encoding, src/Z80Asm.py lines 2372-2382: the bytes 0x10 and
`address & 0xFF` are emitted first; the range check (pass 2, enabled block)
only records an error afterwards, it does not change the emitted byte. -/
def djnzEncode (phase : Nat) (enabled : Bool) (target pcaddr : Int) :
    List Nat × Option String :=
  let address := target - (pcaddr + 2)
  ([0x10, (address % 256).toNat],
   if phase = 2 ∧ enabled = true ∧ (address < -128 ∨ address > 127) then
     some ("Relative jump out of range: " ++ toString address)
   else none)

/-! ## Per-line PC/LC advance (Assembler.AsmPass, src/Z80Asm.py lines
2770-2780).  After a line is parsed, if the top of the conditional stack is
enabled, the emitted bytes `self.mc` are flushed (via SetLoad with the
current `lc[lseg]`, which leaves `lc` unchanged, lines 1606-1609) and both
`pc[pseg]` and `lc[lseg]` advance by `len(mc) + nSpace`. -/

/-- Segment tag: absolute, code or data. -/
inductive Seg where
  | A | C | D
  deriving DecidableEq

/-- The program-counter state of the assembler: the `pc` and `lc`
dictionaries and the current program / load segments. -/
structure CtrState where
  pc : Seg → Int
  lc : Seg → Int
  pseg : Seg
  lseg : Seg

/-- Assembler.AsmPass, src/Z80Asm.py lines 2770-2780: the post-line counter
update.  `mc` is the line's emitted byte buffer, `nSpace` its reserve
count. -/
def lineAdvance (st : CtrState) (enabled : Bool) (mc : List Nat) (nSpace : Nat) :
    CtrState :=
  if enabled then
    let nCode : Int := mc.length + nSpace
    { st with
      pc := Function.update st.pc st.pseg (st.pc st.pseg + nCode),
      lc := Function.update st.lc st.lseg (st.lc st.lseg + nCode) }
  else st

/-! ## Symbol-table case handling (Assembler.Assemble line 2987 and
Assembler.Label lines 895-903) and pass-2 label consistency
(Assembler.Label lines 946-955), error counting (Assembler.AsmPass lines
2760-2764) and end-of-pass-2 artifact handling (Assembler.Assemble lines
3111-3126). -/

/-- The four source dialects. -/
inductive Style where
  | MA | M80 | PASMO | ZASM
  deriving DecidableEq

/-- Assembler.Assemble, src/Z80Asm.py line 2987:
`self.bLabCase = ( self.style in ['M80'] )` - the case-sensitivity flag is
true exactly for the M80 style. -/
def bLabCaseDefault : Style → Bool
  | .M80 => true
  | _ => false

/-- Assembler.Label lines 895-903 / Assembler.ExprEval lines 1296-1298: the
symbol-table key for a name: lowercased unless the case flag is set. -/
def labelKey (bLabCase : Bool) (sLabel : String) : String :=
  if bLabCase then sLabel else sLabel.toLower

/-- Assembler.Label lines 897 and 902-903 and 923: the table key together
with the name stored in the Label record (`sName = sLabel` is captured
before the lowercasing, so the original case is preserved for listing). -/
def labelInsertKeyName (bLabCase : Bool) (sLabel : String) : String × String :=
  (labelKey bLabCase sLabel, sLabel)

/-- Assembler.Label, src/Z80Asm.py lines 946-955: the pass-2 branch for a
label that already exists.  `stored` is the value recorded in pass 1
(`None` if it was never set), `value` the value found in pass 2; a
difference records (at most one) error via AsmErr. -/
def LabelPass2 (sErr : Option String) (stored : Option Int) (value : Int) :
    Option String :=
  match stored with
  | none => AsmErr sErr "Label value not set in pass 1"
  | some v1 =>
      if v1 ≠ value then
        AsmErr sErr ("Label address not consistent between passes ("
          ++ HexFmt v1 4 ++ " in pass 1, " ++ HexFmt value 4 ++ " in pass 2)")
      else sErr

/-- Assembler.AsmPass, src/Z80Asm.py lines 2760-2764: after parsing a line,
`nErr` is incremented by one exactly when `self.sErr` is set (no matter how
many AsmErr calls the line made - only the first was recorded). -/
def lineErrCount (sErr : Option String) : Nat :=
  if sErr.isSome then 1 else 0

/-- The artifact actions at the end of pass 2. -/
structure FinalAction where
  hexKill : Bool
  binKill : Bool
  refKill : Bool
  exitCode : Nat
  deriving DecidableEq

/-- Assembler.Assemble, src/Z80Asm.py lines 3111-3126: every output sink is
closed with `bKill = self.nErr > 0` (HexOut.Close line 3113, BinOut.Close
line 3115, Reformat.Close line 3124, each of which deletes its file when
`bKill` is set), and the process exits with code 1 when `nErr > 0`
(line 3126), else 0. -/
def assembleFinal (nErr : Nat) : FinalAction :=
  { hexKill := decide (nErr > 0)
    binKill := decide (nErr > 0)
    refKill := decide (nErr > 0)
    exitCode := if nErr > 0 then 1 else 0 }

/-! ## Expression evaluator (Assembler.ExprEval, src/Z80Asm.py lines
1281-1434): a shunting-yard fold over the parsed term list.  The Python
term tuples are modelled by `Term`: `('B',v)/('D',v)/('H',v)/('Q',v)`
become `num v` (the evaluator only reads `t[-1]`), `('"',s)` becomes
`strv s` (the string as a list of character codes read latin-1),
`('L',name)` becomes `lbl name`, and an operator tuple becomes `op o`.
Python exceptions are modelled explicitly: `raised` is an uncaught
exception (ZeroDivisionError from `//` or `%`, KeyError from an operator
missing in the precedence table, NameError from reading `op` before any
operator was ever popped), and `hang` is the non-terminating `L2` loop on
a negative operand.  `ret v e` models an early `return` from ExprEval with
result `v` and error state `e`. -/

/-- A parsed expression term (see the module comment above). -/
inductive Term where
  | num (v : Int)
  | strv (s : List Char)
  | lbl (name : String)
  | op (o : String)
  deriving DecidableEq

/-- The two precedence tables (Assembler.evLvl, src/Z80Asm.py lines
811-870): index 0 is the normal binding rules, index 1 the MA simple
(nearly flat) evaluator. -/
inductive EvalMode where
  | full | simple
  deriving DecidableEq

/-- Assembler.evLvl[0], src/Z80Asm.py lines 811-840. -/
def lvlFull : String → Option Nat
  | "U+" => some 9
  | "U-" => some 9
  | "U~" => some 9
  | "L2" => some 9
  | "LOW" => some 8
  | "HIGH" => some 8
  | "*" => some 7
  | "/" => some 7
  | "MOD" => some 7
  | "SHL" => some 7
  | "SHR" => some 7
  | "+" => some 6
  | "-" => some 6
  | "EQ" => some 5
  | "NE" => some 5
  | "LT" => some 5
  | "LE" => some 5
  | "GE" => some 5
  | "GT" => some 5
  | "NOT" => some 4
  | "&" => some 3
  | "AND" => some 3
  | "!" => some 2
  | "OR" => some 2
  | "^" => some 2
  | "XOR" => some 2
  | "(" => some 1
  | ")" => some 1
  | "," => some 0
  | _ => none

/-- Assembler.evLvl[1], src/Z80Asm.py lines 841-870. -/
def lvlSimple : String → Option Nat
  | "U+" => some 3
  | "U-" => some 3
  | "U~" => some 3
  | "L2" => some 3
  | "LOW" => some 2
  | "HIGH" => some 2
  | "*" => some 2
  | "/" => some 2
  | "MOD" => some 2
  | "SHL" => some 2
  | "SHR" => some 2
  | "+" => some 2
  | "-" => some 2
  | "EQ" => some 2
  | "NE" => some 2
  | "LT" => some 2
  | "LE" => some 2
  | "GE" => some 2
  | "GT" => some 2
  | "NOT" => some 2
  | "&" => some 2
  | "AND" => some 2
  | "!" => some 2
  | "OR" => some 2
  | "^" => some 2
  | "XOR" => some 2
  | "(" => some 1
  | ")" => some 1
  | "," => some 0
  | _ => none

/-- The precedence lookup `self.evLvl[self.eval][term]`; `none` models a
KeyError. -/
def lvlOf : EvalMode → String → Option Nat
  | .full, o => lvlFull o
  | .simple, o => lvlSimple o

/-- The evaluation context: `resolve` models the
`labels.get`-then-`publics.get` chain of lines 1300-1305 already combined
with the segment base (`label.value + self.base[label.seg]`), returning
`none` when the label is absent or its value is unset; the other fields
model `self.bLabCase`, `self.phase`, `self.enable[-1]` and `self.eval`. -/
structure EvalCtx where
  resolve : String → Option Int
  bLabCase : Bool
  phase : Nat
  enabled : Bool
  mode : EvalMode

/-- Value of a string term (Assembler.ExprEval lines 1289-1295): empty
string is 0, one character is its code, otherwise
`256 * ord (arg[-2]) + ord (arg[-1])` (all earlier characters ignored). -/
def strTermVal (arg : List Char) : Int :=
  if arg.length = 0 then 0
  else if arg.length = 1 then (arg.headI.toNat : Int)
  else
    match arg.reverse with
    | c1 :: c2 :: _ => 256 * c2.toNat + c1.toNat
    | _ => 0

/-- Outcome of applying one popped operator to the value stack. -/
inductive OpOut where
  | ok (vals : List Int) (e : Option String)
  | ret (v : Int) (e : Option String)
  | raised
  | hang
  deriving DecidableEq

/-- A Python binary-operator step `rValue = lValue.pop (); lValue[-1] =
f (lValue[-1], rValue)`; fewer than two stack entries is an IndexError,
caught at lines 1405-1412 (error recorded, `return 0`). -/
def binApply (e : Option String) (f : Int → Int → Int) (vals : List Int) : OpOut :=
  match vals with
  | r :: l :: rest => .ok (f l r :: rest) e
  | _ => .ret 0 (AsmErr e "Expression evaluation error")

/-- A Python unary-operator step `lValue[-1] = f (lValue[-1])`; an empty
stack is an IndexError, caught as in `binApply`. -/
def unApply (e : Option String) (f : Int → Int) (vals : List Int) : OpOut :=
  match vals with
  | v :: rest => .ok (f v :: rest) e
  | [] => .ret 0 (AsmErr e "Expression evaluation error")

/-- One operator application (the if-chain of Assembler.ExprEval lines
1324-1412).  `//` and `%` are Python floor division and floor remainder
(`Int.fdiv` / `Int.fmod`), raising ZeroDivisionError on a zero divisor
(not caught by the IndexError handler); `x & 0xFF` and `x & 0xFFFF` are
`x % 256` and `x % 65536`; `<<`/`>>` are `* 2^r` and arithmetic
`Int.shiftRight`; bitwise `&`, `!`, `^`, `NOT` use the two's-complement
`Int.land`/`Int.lor`/`Int.xor`.  The `'('` case is handled by the caller
(`popLoop`), never here. -/
def applyOp (e : Option String) (o : String) (vals : List Int) : OpOut :=
  match o with
  | "+" => binApply e (fun l r => l + r) vals
  | "-" => binApply e (fun l r => l - r) vals
  | "U+" => .ok vals e
  | "U-" => unApply e (fun v => -v) vals
  | "U~" => unApply e (fun v => Int.xor v 0xFFFF) vals
  | "NOT" => unApply e (fun v => Int.xor v 0xFFFF) vals
  | "*" => binApply e (fun l r => l * r) vals
  | "/" =>
      match vals with
      | r :: l :: rest =>
          if r = 0 then .raised else .ok (Int.fdiv l r :: rest) e
      | _ => .ret 0 (AsmErr e "Expression evaluation error")
  | "MOD" =>
      match vals with
      | r :: l :: rest =>
          if r = 0 then .raised else .ok (Int.fmod l r :: rest) e
      | _ => .ret 0 (AsmErr e "Expression evaluation error")
  | "HIGH" => unApply e (fun v => Int.shiftRight v 8) vals
  | "LOW" => unApply e (fun v => v % 256) vals
  | "SHL" =>
      match vals with
      | [] => .ret 0 (AsmErr e "Expression evaluation error")
      | r :: rest =>
          if 0 ≤ r then
            match rest with
            | l :: rest2 => .ok ((l * 2 ^ r.toNat) % 65536 :: rest2) e
            | [] => .ret 0 (AsmErr e "Expression evaluation error")
          else .ok rest (AsmErr e ("Negative shift value: " ++ toString r))
  | "SHR" =>
      match vals with
      | [] => .ret 0 (AsmErr e "Expression evaluation error")
      | r :: rest =>
          if 0 ≤ r then
            match rest with
            | l :: rest2 => .ok (Int.shiftRight l r.toNat :: rest2) e
            | [] => .ret 0 (AsmErr e "Expression evaluation error")
          else .ok rest (AsmErr e ("Negative shift value: " ++ toString r))
  | "L2" =>
      match vals with
      | v :: rest =>
          if v < 0 then .hang else .ok ((Nat.log2 v.toNat : Int) :: rest) e
      | [] => .ret 0 (AsmErr e "Expression evaluation error")
  | "EQ" => binApply e (fun l r => if l = r then 0xFFFF else 0) vals
  | "NE" => binApply e (fun l r => if l ≠ r then 0xFFFF else 0) vals
  | "LT" => binApply e (fun l r => if l < r then 0xFFFF else 0) vals
  | "LE" => binApply e (fun l r => if l ≤ r then 0xFFFF else 0) vals
  | "GE" => binApply e (fun l r => if l ≥ r then 0xFFFF else 0) vals
  | "GT" => binApply e (fun l r => if l > r then 0xFFFF else 0) vals
  | "&" => binApply e (fun l r => Int.land l r) vals
  | "AND" => binApply e (fun l r => Int.land l r) vals
  | "!" => binApply e (fun l r => Int.lor l r) vals
  | "OR" => binApply e (fun l r => Int.lor l r) vals
  | "^" => binApply e (fun l r => Int.xor l r) vals
  | "XOR" => binApply e (fun l r => Int.xor l r) vals
  | _ => .ret 0 (AsmErr e ("Invalid expression operator: " ++ o))

/-- Outcome of the operator-popping while loop. -/
inductive PopOut where
  | ok (vals : List Int) (ops : List (Nat × String)) (e : Option String)
        (lastOp : Option String)
  | ret (v : Int) (e : Option String)
  | raised
  | hang
  deriving DecidableEq

/-- The while loop of Assembler.ExprEval lines 1319-1412: pop and apply
operators whose level is `≥ rl`; popping `'('` breaks immediately.
`lastOp` tracks the Python local variable `op` (the most recently popped
operator), needed afterwards by the `')'` check. -/
def popLoop (rl : Nat) (vals : List Int) (ops : List (Nat × String))
    (e : Option String) (lastOp : Option String) : PopOut :=
  match ops with
  | [] => .ok vals [] e lastOp
  | (lvl, o) :: rest =>
      if lvl < rl then .ok vals ((lvl, o) :: rest) e lastOp
      else if o = "(" then .ok vals rest e (some "(")
      else
        match applyOp e o vals with
        | .ok vals2 e2 => popLoop rl vals2 rest e2 (some o)
        | .ret v e2 => .ret v e2
        | .raised => .raised
        | .hang => .hang

/-- Result of ExprEval: a value together with the error state, or an
uncaught exception / non-termination. -/
inductive EvalRes where
  | val (v : Int) (e : Option String)
  | raised
  | hang
  deriving DecidableEq

/-- The final check of Assembler.ExprEval lines 1426-1434: exactly one
value and no pending operators, else record an error and return 0. -/
def evalFinish (vals : List Int) (ops : List (Nat × String))
    (e : Option String) : EvalRes :=
  match ops, vals with
  | [], [v] => .val v e
  | _, _ => .val 0 (AsmErr e "Expression evaluation error")

/-- The main term loop of Assembler.ExprEval lines 1284-1425 (see the
module comment for the correspondence of cases). -/
def evalLoop (ctx : EvalCtx) : List Term → List Int → List (Nat × String) →
    Option String → Option String → EvalRes
  | [], vals, ops, e, _ => evalFinish vals ops e
  | t :: rest, vals, ops, e, lastOp =>
      match t with
      | .num v => evalLoop ctx rest (v :: vals) ops e lastOp
      | .strv s => evalLoop ctx rest (strTermVal s :: vals) ops e lastOp
      | .lbl name =>
          let key := labelKey ctx.bLabCase name
          match ctx.resolve key with
          | some v => evalLoop ctx rest (v :: vals) ops e lastOp
          | none =>
              if ctx.phase = 2 ∧ ctx.enabled = true then
                .val 0 (AsmErr e ("Undefined label: " ++ key))
              else evalLoop ctx rest (0 :: vals) ops e lastOp
      | .op o =>
          if o = "(" then
            match lvlOf ctx.mode "(" with
            | some lvl => evalLoop ctx rest vals ((lvl, "(") :: ops) e lastOp
            | none => .raised
          else
            match lvlOf ctx.mode o with
            | none => .raised
            | some rl =>
                match popLoop rl vals ops e lastOp with
                | .ret v e2 => .val v e2
                | .raised => .raised
                | .hang => .hang
                | .ok vals2 ops2 e2 lastOp2 =>
                    if o = ")" then
                      match lastOp2 with
                      | none => .raised
                      | some po =>
                          if po = "(" then evalLoop ctx rest vals2 ops2 e2 lastOp2
                          else .val 0 (AsmErr e2 "Mismatched brackets")
                    else if o = "," then evalFinish vals2 ops2 e2
                    else evalLoop ctx rest vals2 ((rl, o) :: ops2) e2 lastOp2

/-- Assembler.ExprEval, src/Z80Asm.py lines 1281-1434. -/
def ExprEval (ctx : EvalCtx) (lExpr : List Term) : EvalRes :=
  evalLoop ctx lExpr [] [] none none

/-! ## REPT / ENDM handling (Assembler.Parse, src/Z80Asm.py lines
1795-1815, with the line loop of Assembler.AsmPass lines 2752-2761).
A source file is modelled as a list of lines; the file position
(`handle.tell ()` after reading a line, to which ENDM seeks back) is the
index of the next line.  Only the REPT-relevant line kinds are modelled:
`body` is any other line (assembled normally), `rept n` a REPT whose count
expression evaluated to `n` in an enabled block, `endm` an ENDM.  The
macro stack `mstk` holds the `['R', handle, offset, count]` records as
`(offset, remaining)` pairs (a single input file, so the handle test at
line 1809 always passes). -/

/-- A source line, as far as REPT handling is concerned. -/
inductive RLine where
  | body
  | rept (n : Int)
  | endm
  deriving DecidableEq

/-- The REPT interpreter state: next line index, macro stack, number of
body-line assemblies so far, and the errors recorded so far (one per
line, by AsmErr). -/
structure ReptSt where
  pos : Nat
  mstk : List (Nat × Int)
  nBody : Nat
  errs : List String
  deriving DecidableEq

/-- One line step.  REPT (lines 1795-1800): push a repeat record only when
the count is positive.  ENDM (lines 1801-1815): an empty macro stack
records an error; otherwise pop, decrement the remaining count, and if it
is still positive seek back to the recorded offset and push the record
again.  `none` means the position is past the end of the file (the pass is
finished). -/
def reptStep (prog : List RLine) (st : ReptSt) : Option ReptSt :=
  match prog.get? st.pos with
  | none => none
  | some .body => some { st with pos := st.pos + 1, nBody := st.nBody + 1 }
  | some (.rept n) =>
      if n > 0 then
        some { st with pos := st.pos + 1, mstk := (st.pos + 1, n) :: st.mstk }
      else some { st with pos := st.pos + 1 }
  | some .endm =>
      match st.mstk with
      | [] => some { st with pos := st.pos + 1,
                             errs := st.errs ++ ["ENDM without macro"] }
      | (ret, rem) :: rest =>
          if rem - 1 > 0 then
            some { st with pos := ret, mstk := (ret, rem - 1) :: rest }
          else some { st with pos := st.pos + 1, mstk := rest }

/-- Run the line loop with the given fuel; `some st` is the final state of
a completed pass, `none` means the fuel was insufficient. -/
def reptRun (prog : List RLine) : Nat → ReptSt → Option ReptSt
  | 0, st => if prog.length ≤ st.pos then some st else none
  | fuel + 1, st =>
      match reptStep prog st with
      | none => some st
      | some st2 => reptRun prog fuel st2

/-- The three-line program `REPT n` / body / `ENDM`. -/
def reptProg (n : Int) : List RLine := [.rept n, .body, .endm]

end Z80Asm

open Z80Asm

/-- Claim C2 (code bug): the checksum emitted by HexOut.Write for a type-00
Intel-HEX record whose byte sum is a multiple of 256 is the value 0x100
formatted as THREE hex digits "100", not the two-digit byte 0x00 required by
the claim and by the Intel-HEX format: the source (line 88) omits the final
`& 0xFF`.  Failing input: a record at address 0 carrying the single data
byte 0xFF (byte sum 0x01 + 0x00 + 0x00 + 0xFF = 0x100).  The byte-sum
identity `(sum + checksum) % 256 = 0` does hold for every record. -/
theorem c2_hex_checksum_code_bug :
    HexOut.recordChecksum 0 [0xFF] = 0x100 ∧
    fmtHexW 2 (HexOut.recordChecksum 0 [0xFF]) = "100" ∧
    (fmtHexW 2 (HexOut.recordChecksum 0 [0xFF])).length = 3 ∧
    HexOut.recordString 0 [0xFF] = ":01000000FF100\n" ∧
    ∀ (addr : Nat) (data : List Nat),
      (HexOut.recordSum addr data + HexOut.recordChecksum addr data) % 256 = 0 := by
  refine ⟨by decide, by decide, by decide, by decide, ?_⟩
  intro addr data
  unfold HexOut.recordChecksum
  omega

/-- Claim C8 (code bug): the zero-operand dispatch emits, for RETN, the three
bytes 0xED 0x34 0x35 (the Python literal `b'\xED45'` in Assembler.op0, line
685), not the two bytes 0xED 0x45 that the specification requires. -/
theorem c8_retn_code_bug :
    parseOp0 "RETN" false = some ([0xED, 0x34, 0x35], none) ∧
    op0 "RETN" = some [0xED, 0x34, 0x35] ∧
    ([0xED, 0x34, 0x35] : List Nat).length = 3 ∧
    ([0xED, 0x34, 0x35] : List Nat) ≠ [0xED, 0x45] := by
  refine ⟨rfl, rfl, rfl, by decide⟩

/-- Claim C6 counterexample: the 8-bit constant wrapper EvalArith8 rejects
-0x80 (the test at line 1484 is the strict `value > -0x80`), recording an
error and returning 0 in pass 2 inside an enabled block, whereas the claim
says -0x80 is accepted (which would return the low byte 0x80 with no
error). -/
theorem c6_eval8_counterexample :
    EvalArith8 2 true (-0x80) "Invalid byte constant"
      = (0, some "Invalid byte constant") ∧
    EvalArith8 2 true (-0x80) "Invalid byte constant"
      ≠ (((-0x80 : Int) % 256), none) := by
  constructor
  · decide
  · decide

/-- Claim C6 (amended): in pass 2 inside an enabled block, the 16-bit
wrapper accepts exactly -0x8000..0xFFFF (returning the value masked to 16
bits), the signed 8-bit wrapper accepts exactly -0x80..0x7F, and the 8-bit
constant wrapper accepts exactly -0x7F..0xFF (the source tests
`value > -0x80`, so -0x80 is rejected) together with 0xFF00..0xFFFF folded
to the low byte; every other value records an error and yields 0. -/
theorem c6_range_wrappers (v : Int) (sErr : String) :
    ((EvalArith16 2 true v).2 = none ↔ (-0x8000 ≤ v ∧ v ≤ 0xFFFF)) ∧
    ((-0x8000 ≤ v ∧ v ≤ 0xFFFF) → EvalArith16 2 true v = (v % 65536, none)) ∧
    (¬ (-0x8000 ≤ v ∧ v ≤ 0xFFFF) →
      EvalArith16 2 true v = (0, some "Invalid 16-bit value")) ∧
    ((EvalArithS8 2 true v sErr).2 = none ↔ (-0x80 ≤ v ∧ v ≤ 0x7F)) ∧
    ((-0x80 ≤ v ∧ v ≤ 0x7F) → EvalArithS8 2 true v sErr = (v % 256, none)) ∧
    (¬ (-0x80 ≤ v ∧ v ≤ 0x7F) → EvalArithS8 2 true v sErr = (0, some sErr)) ∧
    ((EvalArith8 2 true v sErr).2 = none ↔
      ((-0x80 < v ∧ v ≤ 0xFF) ∨ (0xFF00 ≤ v ∧ v ≤ 0xFFFF))) ∧
    (((-0x80 < v ∧ v ≤ 0xFF) ∨ (0xFF00 ≤ v ∧ v ≤ 0xFFFF)) →
      EvalArith8 2 true v sErr = (v % 256, none)) ∧
    (¬ ((-0x80 < v ∧ v ≤ 0xFF) ∨ (0xFF00 ≤ v ∧ v ≤ 0xFFFF)) →
      EvalArith8 2 true v sErr = (0, some sErr)) := by
  unfold EvalArith16 EvalArithS8 EvalArith8
  split_ifs with h1 h2 h3 h4 h5 <;> simp_all

/-- Claim C6 amended witness: the wrappers evaluated at concrete accepted
and rejected values. -/
theorem c6_range_wrappers_witness :
    EvalArith16 2 true (-0x8000) = (0x8000, none) ∧
    EvalArithS8 2 true (-0x80) "Index out of range" = (0x80, none) ∧
    EvalArith8 2 true 0xFF42 "Invalid byte constant" = (0x42, none) ∧
    EvalArith8 2 true 0x100 "Invalid byte constant"
      = (0, some "Invalid byte constant") := by
  refine ⟨?_, ?_, ?_, ?_⟩
  · exact (c6_range_wrappers (-0x8000) "x").2.1 (by decide)
  · exact (c6_range_wrappers (-0x80) "Index out of range").2.2.2.2.1 (by decide)
  · exact (c6_range_wrappers 0xFF42 "Invalid byte constant").2.2.2.2.2.2.2.1
      (by decide)
  · exact (c6_range_wrappers 0x100 "Invalid byte constant").2.2.2.2.2.2.2.2
      (by decide)

/-- Claim C4: for JR/DJNZ the emitted displacement byte equals
`(target - (pcaddr + 2)) mod 256`; in pass 2 inside an enabled block a
displacement outside -128..127 records a range error (for JR the emitted
displacement is then replaced by 0; DJNZ still emits the masked byte); in
particular `ORG 0x100` / `L1: JR L1` (target = pcaddr = 0x100, unconditional
opcode 0x18) assembles to the bytes [0x18, 0xFE]. -/
theorem c4_jr_djnz_displacement (phase : Nat) (enabled : Bool) (byCode : Nat)
    (target pcaddr : Int) :
    (-128 ≤ target - (pcaddr + 2) → target - (pcaddr + 2) ≤ 127 →
      jrEncode phase enabled byCode target pcaddr
          = ([byCode, ((target - (pcaddr + 2)) % 256).toNat], none) ∧
      djnzEncode phase enabled target pcaddr
          = ([0x10, ((target - (pcaddr + 2)) % 256).toNat], none)) ∧
    (phase = 2 → enabled = true →
      (target - (pcaddr + 2) < -128 ∨ target - (pcaddr + 2) > 127) →
      (jrEncode phase enabled byCode target pcaddr).2
          = some ("Relative jump out of range: " ++ toString (target - (pcaddr + 2))) ∧
      (djnzEncode phase enabled target pcaddr).1
          = [0x10, ((target - (pcaddr + 2)) % 256).toNat] ∧
      (djnzEncode phase enabled target pcaddr).2
          = some ("Relative jump out of range: " ++ toString (target - (pcaddr + 2)))) ∧
    jrEncode 2 true 0x18 0x100 0x100 = ([0x18, 0xFE], none) := by
  refine ⟨?_, ?_, by decide⟩
  · intro h1 h2
    have hc : ¬ (phase = 2 ∧ enabled = true ∧
        (target - (pcaddr + 2) < -128 ∨ target - (pcaddr + 2) > 127)) := by
      rintro ⟨-, -, h⟩
      omega
    constructor
    · simp only [jrEncode]
      rw [if_neg hc]
    · simp only [djnzEncode]
      rw [if_neg hc]
  · intro hp he hr
    have hc : phase = 2 ∧ enabled = true ∧
        (target - (pcaddr + 2) < -128 ∨ target - (pcaddr + 2) > 127) := ⟨hp, he, hr⟩
    refine ⟨?_, ?_, ?_⟩
    · simp only [jrEncode]
      rw [if_pos hc]
    · simp only [djnzEncode]
    · simp only [djnzEncode]
      rw [if_pos hc]

/-- Claim C4 witness: the theorem applied at the concrete relative-jump
scenario of the specification and at an out-of-range displacement. -/
theorem c4_jr_djnz_displacement_witness :
    jrEncode 2 true 0x18 0x100 0x100 = ([0x18, 0xFE], none) ∧
    djnzEncode 2 true 0x100 0x100 = ([0x10, 0xFE], none) ∧
    (jrEncode 2 true 0x18 0x300 0x100).2
      = some ("Relative jump out of range: " ++ toString (0x300 - (0x100 + 2) : Int)) := by
  refine ⟨?_, ?_, ?_⟩
  · exact (c4_jr_djnz_displacement 2 true 0x18 0x100 0x100).2.2
  · exact ((c4_jr_djnz_displacement 2 true 0x18 0x100 0x100).1
      (by decide) (by decide)).2
  · exact ((c4_jr_djnz_displacement 2 true 0x18 0x300 0x100).2.1
      rfl rfl (by decide)).1

/-- Claim C3: for every line assembled with the conditional stack enabled,
the program counter of the current program segment and the load counter of
the current load segment each advance by exactly
`len(emitted bytes) + reserved`, so the two deltas are equal. -/
theorem c3_pc_lc_advance (st : CtrState) (mc : List Nat) (nSpace : Nat) :
    (lineAdvance st true mc nSpace).pc st.pseg - st.pc st.pseg
        = (mc.length : Int) + nSpace ∧
    (lineAdvance st true mc nSpace).lc st.lseg - st.lc st.lseg
        = (mc.length : Int) + nSpace ∧
    (lineAdvance st true mc nSpace).pc st.pseg - st.pc st.pseg
        = (lineAdvance st true mc nSpace).lc st.lseg - st.lc st.lseg := by
  unfold lineAdvance
  simp [Function.update_same]

/-- Claim C7 counterexample: the case-sensitivity flag `bLabCase` defaults to
ON for the M80 style and OFF for MA (Assembler.Assemble line 2987 sets it to
`style in ['M80']`), the opposite of the claim's "off when the style is M80
and on for the other styles". -/
theorem c7_labcase_counterexample :
    bLabCaseDefault Style.M80 = true ∧ bLabCaseDefault Style.MA = false := by
  decide

/-- Claim C7 (amended): the symbol-table case-sensitivity flag defaults to ON
when the style is M80 and to OFF for the other styles (MA, PASMO, ZASM);
whenever the flag is off, symbol-table keys are lowercased on definition and
lookup while the original-case name is preserved for listing output. -/
theorem c7_labcase_default :
    bLabCaseDefault Style.M80 = true ∧
    bLabCaseDefault Style.MA = false ∧
    bLabCaseDefault Style.PASMO = false ∧
    bLabCaseDefault Style.ZASM = false ∧
    (∀ s : String, labelKey false s = s.toLower) ∧
    (∀ s : String, labelInsertKeyName false s = (s.toLower, s)) ∧
    (∀ s : String, labelKey true s = s) := by
  refine ⟨rfl, rfl, rfl, rfl, fun s => rfl, fun s => rfl, fun s => rfl⟩

/-- Claim C1: when a label's pass-2 value differs from its pass-1 value, the
line records exactly one error (the first; later AsmErr calls on the same
line leave it unchanged), the line contributes exactly 1 to `nErr`, and at
the end of pass 2 any positive `nErr` makes every artifact sink delete its
file on close and the process exit with code 1 (so no binary output is
produced). -/
theorem c1_phase_error_cleanup (v1 v2 : Int) (h : v1 ≠ v2) :
    (∃ m : String, LabelPass2 none (some v1) v2 = some m ∧
      ∀ m2 : String, AsmErr (some m) m2 = some m) ∧
    lineErrCount (LabelPass2 none (some v1) v2) = 1 ∧
    (∀ nErr : Nat, 1 ≤ nErr →
      assembleFinal nErr = ⟨true, true, true, 1⟩) := by
  have hrec : LabelPass2 none (some v1) v2
      = some ("Label address not consistent between passes ("
          ++ HexFmt v1 4 ++ " in pass 1, " ++ HexFmt v2 4 ++ " in pass 2)") := by
    simp only [LabelPass2, AsmErr]
    rw [if_pos h]
  refine ⟨⟨_, hrec, fun m2 => rfl⟩, ?_, ?_⟩
  · rw [hrec]
    rfl
  · intro nErr hn
    unfold assembleFinal
    have : nErr > 0 := hn
    simp [this]

/-- Claim C1 witness: the specification's phase-error scenario, `L1 EQU 5` in
pass 1 but value 10 in pass 2. -/
theorem c1_phase_error_cleanup_witness :
    lineErrCount (LabelPass2 none (some 5) 10) = 1 ∧
    assembleFinal 1 = ⟨true, true, true, 1⟩ := by
  exact ⟨(c1_phase_error_cleanup 5 10 (by decide)).2.1,
         (c1_phase_error_cleanup 5 10 (by decide)).2.2 1 (by decide)⟩

/-- Claim C5 counterexample: the evaluator computes -7 / 2 = -4 (Python
floor division `//`), not the -3 that truncation toward zero (`Int.tdiv`)
would give, contradicting the claim for the concrete operands -7 and 2. -/
theorem c5_division_counterexample :
    ExprEval ⟨fun _ => none, true, 2, true, .full⟩
        [.op "U-", .num 7, .op "/", .num 2, .op ","] = .val (-4) none ∧
    Int.tdiv (-7) 2 = -3 ∧
    (-4 : Int) ≠ -3 := by
  refine ⟨by decide, by decide, by decide⟩

/-- Helper for claim C9: the value of a string of length at least two
depends only on its final two characters. -/
theorem strTermVal_last_two (pre : List Char) (c2 c1 : Char) :
    strTermVal (pre ++ [c2, c1]) = 256 * c2.toNat + c1.toNat := by
  unfold strTermVal
  rw [if_neg (by simp), if_neg (by simp [Nat.add_comm]), List.reverse_append]
  rfl

set_option maxHeartbeats 1600000 in
/-- Claim C5 (amended): in the expression evaluator, the binary operators
`/` and `MOD` are Python floor division and floor remainder (`Int.fdiv` /
`Int.fmod`, rounding toward negative infinity, remainder with the sign of
the divisor) - so -7 / 2 yields -4, not the -3 of truncation toward zero -
and a SHL/SHR whose right operand is negative records an error. -/
theorem c5_floor_division (ctx : EvalCtx) (a b s : Int) :
    (b ≠ 0 →
      ExprEval ctx [.num a, .op "/", .num b, .op ","]
        = .val (Int.fdiv a b) none ∧
      ExprEval ctx [.num a, .op "MOD", .num b, .op ","]
        = .val (Int.fmod a b) none) ∧
    (0 < b →
      b * Int.fdiv a b ≤ a ∧ a < b * (Int.fdiv a b + 1) ∧
      0 ≤ Int.fmod a b ∧ Int.fmod a b < b) ∧
    (s < 0 →
      ExprEval ctx [.num a, .op "SHL", .num s, .op ","]
        = .val a (some ("Negative shift value: " ++ toString s)) ∧
      ExprEval ctx [.num a, .op "SHR", .num s, .op ","]
        = .val a (some ("Negative shift value: " ++ toString s))) ∧
    ExprEval ctx [.op "U-", .num 7, .op "/", .num 2, .op ","]
      = .val (-4) none := by
  obtain ⟨res, blc, ph, en, mode⟩ := ctx
  refine ⟨?_, ?_, ?_, ?_⟩
  · intro hb
    constructor <;> cases mode <;>
      [ simp [ExprEval, evalLoop, popLoop, applyOp, evalFinish, lvlOf,
          lvlFull, hb];
        simp [ExprEval, evalLoop, popLoop, applyOp, evalFinish, lvlOf,
          lvlSimple, hb];
        simp [ExprEval, evalLoop, popLoop, applyOp, evalFinish, lvlOf,
          lvlFull, hb];
        simp [ExprEval, evalLoop, popLoop, applyOp, evalFinish, lvlOf,
          lvlSimple, hb] ]
  · intro hb
    have hfd := Int.fdiv_add_fmod a b
    have hfe := Int.fmod_eq_emod a (le_of_lt hb)
    have h0 : 0 ≤ Int.fmod a b := by
      rw [hfe]
      exact Int.emod_nonneg a (by omega)
    have h1 : Int.fmod a b < b := by
      rw [hfe]
      exact Int.emod_lt_of_pos a hb
    refine ⟨by linarith, ?_, h0, h1⟩
    rw [mul_add, mul_one]
    linarith
  · intro hs
    constructor <;> cases mode <;>
      [ simp [ExprEval, evalLoop, popLoop, applyOp, evalFinish, lvlOf,
          lvlFull, AsmErr, not_le.mpr hs];
        simp [ExprEval, evalLoop, popLoop, applyOp, evalFinish, lvlOf,
          lvlSimple, AsmErr, not_le.mpr hs];
        simp [ExprEval, evalLoop, popLoop, applyOp, evalFinish, lvlOf,
          lvlFull, AsmErr, not_le.mpr hs];
        simp [ExprEval, evalLoop, popLoop, applyOp, evalFinish, lvlOf,
          lvlSimple, AsmErr, not_le.mpr hs] ]
  · cases mode <;> rfl

/-- Claim C5 amended witness: the floor-division facts evaluated at the
concrete operands -7 and 2, and a negative shift count. -/
theorem c5_floor_division_witness :
    ExprEval ⟨fun _ => none, true, 2, true, .full⟩
        [.num (-7), .op "/", .num 2, .op ","] = .val (-4) none ∧
    ExprEval ⟨fun _ => none, true, 2, true, .full⟩
        [.num (-7), .op "MOD", .num 2, .op ","] = .val 1 none ∧
    ExprEval ⟨fun _ => none, true, 2, true, .full⟩
        [.num 1, .op "SHL", .num (-1), .op ","]
      = .val 1 (some ("Negative shift value: " ++ toString (-1 : Int))) := by
  refine ⟨?_, ?_, ?_⟩
  · exact ((c5_floor_division ⟨fun _ => none, true, 2, true, .full⟩
      (-7) 2 0).1 (by decide)).1
  · exact ((c5_floor_division ⟨fun _ => none, true, 2, true, .full⟩
      (-7) 2 0).1 (by decide)).2
  · exact ((c5_floor_division ⟨fun _ => none, true, 2, true, .full⟩
      1 2 (-1)).2.2.1 (by decide)).1

/-- Claim C9: a string term used as a numeric value evaluates to 0 when
empty, to the character code for one character, and to
`256 * code (second-to-last) + code (last)` for length at least two, with
every character before the final two ignored. -/
theorem c9_string_term_value (ctx : EvalCtx) (c c2 c1 : Char) (pre : List Char) :
    ExprEval ctx [.strv [], .op ","] = .val 0 none ∧
    ExprEval ctx [.strv [c], .op ","] = .val (c.toNat : Int) none ∧
    ExprEval ctx [.strv (pre ++ [c2, c1]), .op ","]
      = .val (256 * c2.toNat + c1.toNat) none := by
  obtain ⟨res, blc, ph, en, mode⟩ := ctx
  refine ⟨?_, ?_, ?_⟩
  · cases mode <;> rfl
  · cases mode <;> rfl
  · have hrun : ExprEval ⟨res, blc, ph, en, mode⟩
        [.strv (pre ++ [c2, c1]), .op ","]
        = .val (strTermVal (pre ++ [c2, c1])) none := by
      cases mode <;> rfl
    rw [hrun, strTermVal_last_two]

/-- Helper for claim C10: running the loop body from position 1 with an
active repeat record `(1, j+1)` assembles the body j+1 more times and ends
past the ENDM with an empty macro stack and no error. -/
theorem reptRun_loop (n0 : Int) : ∀ (j b : Nat) (m : Int), m = j + 1 →
    reptRun (reptProg n0) (2 * j + 3) ⟨1, [(1, m)], b, []⟩
      = some ⟨3, [], b + (j + 1), []⟩ := by
  intro j
  induction j with
  | zero =>
    intro b m hm
    subst hm
    rfl
  | succ j ih =>
    intro b m hm
    have hf : 2 * (j + 1) + 3 = ((2 * j + 3) + 1) + 1 := by ring
    rw [hf]
    rw [reptRun]
    simp only [reptStep, reptProg, List.get?]
    rw [reptRun]
    simp only [reptStep, reptProg, List.get?]
    have hm1 : m - 1 > 0 := by omega
    rw [if_pos hm1]
    have hih := ih (b + 1) (m - 1) (by omega)
    have hb : b + (j + 1 + 1) = b + 1 + (j + 1) := by omega
    rw [hb]
    exact hih

/-- Claim C10: a REPT whose count is zero or negative (in an enabled block)
pushes no repeat record, the body is still assembled exactly once, and the
matching ENDM then records an "ENDM without macro" error; for every count
k at least 1 the body is assembled exactly k times with no error. -/
theorem c10_rept_count (n : Int) (k : Nat) :
    (n ≤ 0 →
      reptStep (reptProg n) ⟨0, [], 0, []⟩ = some ⟨1, [], 0, []⟩ ∧
      reptRun (reptProg n) 5 ⟨0, [], 0, []⟩
        = some ⟨3, [], 1, ["ENDM without macro"]⟩) ∧
    (1 ≤ k →
      reptRun (reptProg k) (2 * k + 2) ⟨0, [], 0, []⟩ = some ⟨3, [], k, []⟩) := by
  constructor
  · intro hn
    have hng : ¬ (n > 0) := by omega
    constructor
    · simp only [reptStep, reptProg, List.get?]
      rw [if_neg hng]
    · simp [reptRun, reptStep, reptProg, hng]
  · intro hk
    obtain ⟨j, rfl⟩ : ∃ j, k = j + 1 := ⟨k - 1, by omega⟩
    have hf : 2 * (j + 1) + 2 = (2 * j + 3) + 1 := by ring
    rw [hf, reptRun]
    simp only [reptStep, reptProg, List.get?]
    have hpos : ((j + 1 : Nat) : Int) > 0 := by push_cast; omega
    rw [if_pos hpos]
    have hloop := reptRun_loop ((j + 1 : Nat) : Int) j 0 ((j + 1 : Nat) : Int)
      (by push_cast; ring)
    rw [Nat.zero_add] at hloop
    exact hloop

/-- Claim C10 witness: a zero count assembles the body once and records the
ENDM error; the specification's `REPT 3` assembles the body three times. -/
theorem c10_rept_count_witness :
    reptRun (reptProg 0) 5 ⟨0, [], 0, []⟩
      = some ⟨3, [], 1, ["ENDM without macro"]⟩ ∧
    reptRun (reptProg 3) 8 ⟨0, [], 0, []⟩ = some ⟨3, [], 3, []⟩ := by
  exact ⟨((c10_rept_count 0 3).1 (by decide)).2,
         (c10_rept_count 0 3).2 (by decide)⟩
